import Mathlib

/-!
# Verification of the movie enrichment / recommendation service

A shallow embedding of the TypeScript services in `src/services/enrichmentService.ts`
and the recommendation service (`RecommendationService`), together with theorems
settling the stated behavioural claims.

Modelling conventions:
* JS numbers holding catalog facts (budget, revenue, ids) are integers in the data
  set, so they are modelled as `Int`; score arithmetic done with JS doubles
  (`Math.log10`, `toFixed`) is modelled over `ℝ`; exact rational averages (rolling
  ROI) over `ℚ`.
* `JSON.parse` and the remote oracle are external effects; they enter as explicit
  function parameters (`parse`, `oracle`) returning `Option` — `none` models a
  thrown exception / malformed completion.
* JS string comparison (`localeCompare` on zero-padded ISO dates) is code-point
  lexicographic comparison, modelled structurally on `String.data`.
* `Array.prototype.sort` is a stable sort; it is modelled by a stable insertion
  sort on the release-date key.
-/

namespace MovieRec

/-- Code-point lexicographic `<` on character lists, as JS compares strings. -/
def charListLt : List Char → List Char → Bool
  | _, [] => false
  | [], _ :: _ => true
  | a :: as, b :: bs => if a < b then true else if b < a then false else charListLt as bs

/-- JS `a < b` / ascending `localeCompare` on strings (ISO dates are zero padded,
so code-point order is date order). -/
def strLt (a b : String) : Bool := charListLt a.data b.data

/-- JS `s.trim() === ''`: every character of the string is whitespace. -/
def isBlank (s : String) : Bool := s.data.all Char.isWhitespace

/-- Catalog movie record (`src/models/movie.ts`), restricted to the fields the
core reads.  `productionCompanies` is the raw serialized JSON column; `none`
models a SQL NULL / undefined field. -/
structure Movie where
  movieId : Int
  title : String
  releaseDate : String
  budget : Int
  revenue : Int
  productionCompanies : Option String
  deriving DecidableEq

/-- One element of the parsed production-company JSON array; `name` is `none`
when the object has no `name` field (JS `c.name` is `undefined`). -/
structure Company where
  name : Option String
  deriving DecidableEq

/-- Result row of `db.getAverageRatingForMovie` (`none` models a NULL aggregate
for a movie with no rating rows). -/
structure RatingStats where
  avgRating : ℚ
  count : Nat

/-- Persisted enrichment record (`src/models/movieEnrichment.ts`). -/
structure MovieEnrichment where
  movieId : Int
  awardPotential : String
  popularityQualityIndex : Int
  emotionalGenres : String
  productionCompanyRollingROI : Option ℚ
  productionEffectivenessScore : ℝ

/-! ## Enrichment orchestrator: selection (`selectMoviesWithRatings`) -/

/-- The admission test of the selection loop:
`ratingStats && ratingStats.count > 0` for `db.getAverageRatingForMovie`. -/
def hasRatings (stats : Int → Option RatingStats) (m : Movie) : Bool :=
  match stats m.movieId with
  | some s => decide (0 < s.count)
  | none => false

/-- Translation of `selectMoviesWithRatings` (enrichmentService.ts lines 59-74): scan the
catalog in storage order, `break` once `limit` movies are admitted, admit a
movie iff its rating aggregate exists with positive count. -/
def selectMoviesWithRatings (stats : Int → Option RatingStats) (limit : Nat) :
    List Movie → List Movie
  | [] => []
  | m :: rest =>
    if limit = 0 then []
    else if hasRatings stats m then
      m :: selectMoviesWithRatings stats (limit - 1) rest
    else selectMoviesWithRatings stats limit rest

/-! ## Enrichment orchestrator: batch loop (`enrichMovies`) -/

/-- The `enrichMovies` batch loop (enrichmentService.ts lines 33-50): per movie, run
`enrichSingleMovie` (`enrich`, `none` = a thrown oracle/DB error) then
`db.saveEnrichment` (`save`, `none` = a thrown persistence error); on success
the row is persisted and pushed onto the result list, on any failure the
`catch` logs and the loop continues.  Returns (result list, persisted rows),
both in processing order.  The function is total: no exception escapes. -/
def enrichMovies (enrich : Movie → Option MovieEnrichment)
    (save : MovieEnrichment → Option Unit) :
    List Movie → List MovieEnrichment × List MovieEnrichment
  | [] => ([], [])
  | m :: rest =>
    match enrich m with
    | none => enrichMovies enrich save rest
    | some e =>
      match save e with
      | none => enrichMovies enrich save rest
      | some _ =>
        let r := enrichMovies enrich save rest
        (e :: r.1, e :: r.2)

/-- Success of one iteration of the batch loop: both the enrichment and the save
succeed. -/
def itemSucceeds (enrich : Movie → Option MovieEnrichment)
    (save : MovieEnrichment → Option Unit) (m : Movie) : Bool :=
  match enrich m with
  | none => false
  | some e => (save e).isSome

/-- The enrichment record produced by one fully successful iteration. -/
def processedEnrichment (enrich : Movie → Option MovieEnrichment)
    (save : MovieEnrichment → Option Unit) (m : Movie) : Option MovieEnrichment :=
  (enrich m).bind fun e => (save e).map fun _ => e

/-! ## Oracle response handling (`getLLMEnrichments`) -/

/-- Fields of the parsed oracle JSON that `getLLMEnrichments` reads; `none`
models a missing key (JS `undefined`). -/
structure ParsedEnrichment where
  awardPotential : Option String
  popularityQualityIndex : Option Int
  emotionalGenres : Option String

/-- The triple returned by `getLLMEnrichments`. -/
structure LLMEnrichments where
  awardPotential : String
  popularityQualityIndex : Int
  emotionalGenres : String
  deriving DecidableEq

/-- JS `x || d` on a string-valued field: missing (`undefined`) or empty string
falls back to the default. -/
def jsOrString : Option String → String → String
  | none, d => d
  | some s, d => if s = "" then d else s

/-- JS `x || d` on a number-valued field: missing (`undefined`) or `0` falls
back to the default. -/
def jsOrInt : Option Int → Int → Int
  | none, d => d
  | some n, d => if n = 0 then d else n

/-- JS `response.choices[0].message.content?.trim() || '\x7b\x7d'`: the text handed
to `JSON.parse`. -/
def normalizeContent : Option String → String
  | none => "\x7b\x7d"
  | some s => if isBlank s then "\x7b\x7d" else s.trim

/-- Translation of the `getLLMEnrichments` response handling (enrichmentService.ts lines 178-195):
parse the completion text; a parse failure yields the fixed default triple, a
parsed object is read with `||`-defaulting per field. -/
def getLLMEnrichments (parse : String → Option ParsedEnrichment)
    (content : Option String) : LLMEnrichments :=
  match parse (normalizeContent content) with
  | none => ⟨"Medium", 50, "emotional"⟩
  | some p =>
    ⟨jsOrString p.awardPotential "Medium",
     jsOrInt p.popularityQualityIndex 50,
     jsOrString p.emotionalGenres "emotional"⟩

/-! ## Financial metrics: rolling company ROI (`calculateCompanyROI`) -/

/-- JS `JSON.parse(m.productionCompanies || '[]')` inside the catalog filter:
a missing or empty column parses to the empty array, and a parse exception
(`none`) makes the filter reject the movie. -/
def companyListOf (parse : String → Option (List Company)) (m : Movie) :
    Option (List Company) :=
  match m.productionCompanies with
  | none => some []
  | some s => if s = "" then some [] else parse s

/-- JS `mCompanies.some(c => c.name === primaryCompany)` guarded by the
try/catch of the filter. -/
def hasCompanyNamed (parse : String → Option (List Company)) (primary : String)
    (m : Movie) : Bool :=
  match companyListOf parse m with
  | none => false
  | some cs => cs.any fun c => c.name = some primary

/-- JS `m.releaseDate && m.releaseDate < movie.releaseDate`: a non-empty release
date strictly earlier than the target's. -/
def isPriorRelease (target m : Movie) : Bool :=
  !(m.releaseDate = "") && strLt m.releaseDate target.releaseDate

/-- Stable insertion of a movie into a release-date-sorted list (models the
stability of `Array.prototype.sort` under the `localeCompare` comparator). -/
def insertByDate (m : Movie) : List Movie → List Movie
  | [] => [m]
  | x :: xs =>
    if strLt x.releaseDate m.releaseDate then x :: insertByDate m xs
    else m :: x :: xs

/-- JS `.sort((a, b) => a.releaseDate.localeCompare(b.releaseDate))`: stable sort
ascending by release date. -/
def sortByDate : List Movie → List Movie
  | [] => []
  | x :: xs => insertByDate x (sortByDate xs)

/-- JS `parsed.map(c => c.name || '').filter(n => n !== '')`: the declared company
names of the target movie. -/
def parsedCompanyNames (cs : List Company) : List String :=
  (cs.map fun c => c.name.getD "").filter fun n => !(n = "")

/-- JS `m.budget > 0 && m.revenue > 0`. -/
def isValidFinancials (m : Movie) : Bool :=
  decide (0 < m.budget) && decide (0 < m.revenue)

/-- JS `((m.revenue - m.budget) / m.budget) * 100`, exact. -/
def movieROI (m : Movie) : ℚ :=
  ((m.revenue : ℚ) - (m.budget : ℚ)) / (m.budget : ℚ) * 100

/-- The catalog movies of the primary company released strictly before the
target, sorted ascending by release date (enrichmentService.ts lines 220-230). -/
def priorCompanyMovies (parse : String → Option (List Company))
    (catalog : List Movie) (movie : Movie) (primary : String) : List Movie :=
  sortByDate ((catalog.filter (hasCompanyNamed parse primary)).filter
    (isPriorRelease movie))

/-- JS `companyMovies.slice(-10)`: the trailing window of at most the 10 most
recent prior releases. -/
def trailingWindow (parse : String → Option (List Company))
    (catalog : List Movie) (movie : Movie) (primary : String) : List Movie :=
  let sorted := priorCompanyMovies parse catalog movie primary
  sorted.drop (sorted.length - 10)

/-- The averaging loop of `calculateCompanyROI` (enrichmentService.ts lines
237-249): sum of ROIs over the valid-financial movies divided by their count,
`null` when none qualify. -/
def windowAverage (valid : List Movie) : Option ℚ :=
  if 0 < valid.length then some ((valid.map movieROI).sum / (valid.length : ℚ))
  else none

/-- Tail of `calculateCompanyROI` after the window is known: the early return
on an empty window, then the `validCount > 0 ? totalROI / validCount : null`
average over the valid-financial window members. -/
def windowROI (parse : String → Option (List Company)) (catalog : List Movie)
    (movie : Movie) (primary : String) : Option ℚ :=
  if (trailingWindow parse catalog movie primary).length = 0 then none
  else windowAverage
    ((trailingWindow parse catalog movie primary).filter isValidFinancials)

/-- Translation of `calculateCompanyROI` (enrichmentService.ts lines 200-250).  `parse` stands
for `JSON.parse` on the company column (`none` = exception). -/
def calculateCompanyROI (parse : String → Option (List Company))
    (catalog : List Movie) (movie : Movie) : Option ℚ :=
  match movie.productionCompanies with
  | none => none
  | some raw =>
    if isBlank raw then none
    else
      match parse raw with
      | none => none
      | some parsed =>
        match parsedCompanyNames parsed with
        | [] => none
        | primary :: _ => windowROI parse catalog movie primary

/-- The declared, parseable, non-empty company-name list of a movie: `none`
models "no declared or parseable production-company list". -/
def companyNames (parse : String → Option (List Company)) (movie : Movie) :
    Option (List String) :=
  match movie.productionCompanies with
  | none => none
  | some raw =>
    if isBlank raw then none else (parse raw).map parsedCompanyNames

/-! ## Recommendation pipeline (`RecommendationService`) -/

/-- A movie joined with its enrichment row
(`db.getEnrichedMoviesWithDetails`), restricted to the fields the
recommendation/compare pipelines read. -/
structure EnrichedMovie where
  movieId : Int
  title : String
  awardPotential : String
  emotionalGenres : String
  popularityQualityIndex : Int
  deriving DecidableEq

/-- One `(movieId, score, reasoning)` element of the oracle's recommendation
JSON; `none` models a missing field. -/
structure RecTriple where
  movieId : Int
  score : Option Int
  reasoning : Option String
  deriving DecidableEq

/-- An entry of the result list of `getRecommendations`
(`src/models/recommendation.ts`). -/
structure Recommendation where
  movie : EnrichedMovie
  score : Int
  reasoning : String
  deriving DecidableEq

/-- JS `enrichedMovies.filter(m => !ratedMovieIds.has(m.movieId))`: the candidate
set after excluding already-rated movies. -/
def candidateMovies (ratedIds : List Int) (enriched : List EnrichedMovie) :
    List EnrichedMovie :=
  enriched.filter fun m => !(ratedIds.contains m.movieId)

/-- Reconciliation of one oracle triple (recommendationService `forEach` body):
look the id up in the full candidate list; an id with no candidate contributes
nothing, a hit is completed with `||`-defaulted score and reasoning. -/
def reconcile (cands : List EnrichedMovie) (rec : RecTriple) :
    Option Recommendation :=
  (cands.find? fun m => m.movieId = rec.movieId).map fun movie =>
    ⟨movie, jsOrInt rec.score 0,
     jsOrString rec.reasoning "Recommended based on your preferences"⟩

/-- The `getRecommendations` candidate/reconciliation core (recommendationService,
lines 109-209).  The prompt embeds `candidateMovies.slice(0, 50)`, so the
oracle is a function of that truncated list; `none` models an unparseable
completion (the `catch`), `some triples` the parsed
`parsed.recommendations`. -/
def getRecommendations (oracle : List EnrichedMovie → Option (List RecTriple))
    (ratedIds : List Int) (enriched : List EnrichedMovie) (count : Nat) :
    Except String (List Recommendation) :=
  if (candidateMovies ratedIds enriched).isEmpty then
    .error "No unrated movies available for recommendations"
  else
    match oracle ((candidateMovies ratedIds enriched).take 50) with
    | none => .error "Failed to generate recommendations"
    | some triples =>
      .ok ((triples.take count).filterMap (reconcile (candidateMovies ratedIds enriched)))

/-- Translation of `compareMovies` (recommendationService, lines 291-385): arity check, lookup
of the requested ids in the enriched catalog, count check, then the oracle
call on the matched movies (`none` = unparseable completion). -/
def compareMovies {α : Type} (oracle : List EnrichedMovie → Option α)
    (enriched : List EnrichedMovie) (movieIds : List Int) : Except String α :=
  if movieIds.length < 2 then
    .error "At least 2 movies are required for comparison"
  else
    let movies := enriched.filter fun m => movieIds.contains m.movieId
    if movies.length ≠ movieIds.length then
      .error "Some movies not found or not enriched"
    else
      match oracle movies with
      | some answer => .ok answer
      | none => .error "Failed to compare movies"

/-! ## Financial metrics: production effectiveness
(`calculateProductionEffectiveness`)

JS doubles are idealized as real numbers: `Math.log10` is `Real.logb 10`, and
`Number(x.toFixed(2))` is rounding to the nearest multiple of `1/100`. -/

/-- JS `(avgRating / 5.0) * 100`. -/
noncomputable def ratingScore (avgRating : ℝ) : ℝ := avgRating / 5 * 100

/-- The `roiScore` component: `0` unless budget and revenue are positive, else
`Math.min(100, Math.max(0, (roi + 50) / 2))` for
`roi = ((revenue - budget) / budget) * 100`. -/
noncomputable def roiScore (budget revenue : Int) : ℝ :=
  if 0 < budget ∧ 0 < revenue then
    min 100 (max 0 ((((revenue : ℝ) - (budget : ℝ)) / (budget : ℝ) * 100 + 50) / 2))
  else 0

/-- The `revenueScore` component: `0` unless revenue is positive, else
`Math.min(100, (Math.log10(revenue) / 9) * 100)`. -/
noncomputable def revenueScore (revenue : Int) : ℝ :=
  if 0 < revenue then min 100 (Real.logb 10 (revenue : ℝ) / 9 * 100) else 0

/-- JS `Number(x.toFixed(2))`: round to two decimal places. -/
noncomputable def roundTo2 (x : ℝ) : ℝ := (round (x * 100) : ℤ) / 100

/-- Translation of `calculateProductionEffectiveness` (enrichmentService.ts lines 256-285):
the weighted sum `rating*0.4 + roi*0.35 + revenue*0.25`, rounded to two
decimals.  A pure total function of its numeric inputs. -/
noncomputable def calculateProductionEffectiveness (movie : Movie)
    (avgRating : ℝ) : ℝ :=
  roundTo2 (ratingScore avgRating * 0.4 + roiScore movie.budget movie.revenue * 0.35 +
    revenueScore movie.revenue * 0.25)

/-! ## General list helper lemmas -/

lemma length_filterMap_eq_countP {α β : Type} (f : α → Option β) :
    ∀ l : List α, (l.filterMap f).length = l.countP fun a => (f a).isSome := by
  intro l
  induction l with
  | nil => rfl
  | cons a l ih =>
    simp only [List.filterMap_cons, List.countP_cons]
    cases h : f a <;> simp [ih, h]

lemma find?_isSome_eq_any {α : Type} (p : α → Bool) :
    ∀ l : List α, (l.find? p).isSome = l.any p := by
  intro l
  induction l with
  | nil => rfl
  | cons a l ih =>
    simp only [List.find?_cons, List.any_cons]
    cases h : p a <;> simp [h, ih]

lemma isEmpty_false_of_ne_nil {α : Type} {l : List α} (h : l ≠ []) :
    l.isEmpty = false := by
  cases l with
  | nil => exact absurd rfl h
  | cons a l => rfl

/-! ## C6: selection -/

lemma selectMoviesWithRatings_eq (stats : Int → Option RatingStats) :
    ∀ (movies : List Movie) (limit : Nat),
      selectMoviesWithRatings stats limit movies =
        (movies.filter (hasRatings stats)).take limit := by
  intro movies
  induction movies with
  | nil => intro limit; simp [selectMoviesWithRatings]
  | cons m rest ih =>
    intro limit
    cases limit with
    | zero => simp [selectMoviesWithRatings]
    | succ n =>
      by_cases h : hasRatings stats m
      · simp [selectMoviesWithRatings, h, List.filter_cons, ih]
      · simp [selectMoviesWithRatings, h, List.filter_cons, ih]

/-- C6: `selectMoviesWithRatings` scans the catalog in storage order, admits a
movie iff its rating aggregate has positive count, and stops at the limit: the
result is the limit-prefix of the eligible movies, its length never exceeds the
limit, and every selected movie has at least one rating (so a movie with zero
ratings is never selected, regardless of catalog position). -/
theorem selectMoviesWithRatings_spec :
    ∀ (stats : Int → Option RatingStats) (limit : Nat) (movies : List Movie),
      selectMoviesWithRatings stats limit movies =
        (movies.filter (hasRatings stats)).take limit ∧
      (selectMoviesWithRatings stats limit movies).length ≤ limit ∧
      (∀ m ∈ selectMoviesWithRatings stats limit movies,
        ∃ s, stats m.movieId = some s ∧ 0 < s.count) := by
  intro stats limit movies
  refine ⟨selectMoviesWithRatings_eq stats movies limit, ?_, ?_⟩
  · rw [selectMoviesWithRatings_eq]
    exact List.length_take_le _ _
  · intro m hm
    rw [selectMoviesWithRatings_eq] at hm
    have hf := (List.mem_filter.mp (List.mem_of_mem_take hm)).2
    unfold hasRatings at hf
    cases h : stats m.movieId with
    | none => rw [h] at hf; exact absurd hf (by simp)
    | some s =>
      rw [h] at hf
      exact ⟨s, rfl, by simpa using hf⟩

theorem selectMoviesWithRatings_spec_witness :
    selectMoviesWithRatings (fun i => if i = 1 then some ⟨3, 2⟩ else none) 1
      [⟨1, "A", "2020-01-01", 100, 200, none⟩, ⟨2, "B", "2021-01-01", 5, 5, none⟩] =
      [⟨1, "A", "2020-01-01", 100, 200, none⟩] := by
  rw [(selectMoviesWithRatings_spec (fun i => if i = 1 then some ⟨3, 2⟩ else none) 1
    [⟨1, "A", "2020-01-01", 100, 200, none⟩, ⟨2, "B", "2021-01-01", 5, 5, none⟩]).1]
  decide

/-! ## C3: batch loop -/

lemma processedEnrichment_isSome (enrich : Movie → Option MovieEnrichment)
    (save : MovieEnrichment → Option Unit) (m : Movie) :
    (processedEnrichment enrich save m).isSome = itemSucceeds enrich save m := by
  unfold processedEnrichment itemSucceeds
  cases enrich m with
  | none => rfl
  | some e => cases h : save e <;> simp [h]

lemma enrichMovies_eq (enrich : Movie → Option MovieEnrichment)
    (save : MovieEnrichment → Option Unit) :
    ∀ movies : List Movie,
      enrichMovies enrich save movies =
        (movies.filterMap (processedEnrichment enrich save),
         movies.filterMap (processedEnrichment enrich save)) := by
  intro movies
  induction movies with
  | nil => rfl
  | cons m rest ih =>
    show (match enrich m with
      | none => enrichMovies enrich save rest
      | some e =>
        match save e with
        | none => enrichMovies enrich save rest
        | some _ =>
          let r := enrichMovies enrich save rest
          (e :: r.1, e :: r.2)) = _
    cases he : enrich m with
    | none => simp [List.filterMap_cons, processedEnrichment, he, ih]
    | some e =>
      cases hs : save e with
      | none => simp [List.filterMap_cons, processedEnrichment, he, hs, ih]
      | some u => simp [List.filterMap_cons, processedEnrichment, he, hs, ih]

/-- C3: the batch loop is total (it returns plain lists: the per-item `catch`
keeps any failure from escaping), persists exactly the rows it returns, returns
exactly the records of the movies whose pipeline (enrichment + save) succeeded,
in processing order, and when exactly one movie's pipeline fails, both the
result list and the persisted rows number `N - 1`. -/
theorem enrichMovies_spec :
    ∀ (enrich : Movie → Option MovieEnrichment) (save : MovieEnrichment → Option Unit)
      (movies : List Movie),
      (enrichMovies enrich save movies).2 = (enrichMovies enrich save movies).1 ∧
      (enrichMovies enrich save movies).1 =
        movies.filterMap (processedEnrichment enrich save) ∧
      (movies.countP (fun m => !(itemSucceeds enrich save m)) = 1 →
        (enrichMovies enrich save movies).1.length = movies.length - 1 ∧
        (enrichMovies enrich save movies).2.length = movies.length - 1) := by
  intro enrich save movies
  rw [enrichMovies_eq]
  refine ⟨rfl, rfl, fun h1 => ?_⟩
  have hlen : (movies.filterMap (processedEnrichment enrich save)).length =
      movies.countP (fun m => itemSucceeds enrich save m) := by
    rw [length_filterMap_eq_countP]
    congr 1
    funext m
    exact processedEnrichment_isSome enrich save m
  have hsplit : movies.length =
      movies.countP (fun m => itemSucceeds enrich save m) +
        movies.countP (fun m => !(itemSucceeds enrich save m)) := by
    have := List.length_eq_countP_add_countP (fun m => itemSucceeds enrich save m)
      (l := movies)
    simpa using this
  constructor <;> · rw [hlen]; omega

theorem enrichMovies_spec_witness :
    (enrichMovies
        (fun m => if m.movieId = 2 then none else some ⟨m.movieId, "High", 80, "dark", none, 0⟩)
        (fun _ => some ())
        [⟨1, "A", "2020-01-01", 10, 20, none⟩, ⟨2, "B", "2021-01-01", 10, 20, none⟩,
         ⟨3, "C", "2022-01-01", 10, 20, none⟩]).1.length = 2 := by
  have h := (enrichMovies_spec
    (fun m => if m.movieId = 2 then none else some ⟨m.movieId, "High", 80, "dark", none, 0⟩)
    (fun _ => some ())
    [⟨1, "A", "2020-01-01", 10, 20, none⟩, ⟨2, "B", "2021-01-01", 10, 20, none⟩,
     ⟨3, "C", "2022-01-01", 10, 20, none⟩]).2.2 (by decide)
  rw [h.1]
  decide

/-! ## C7 and C9: oracle response defaulting -/

/-- C7: a completion that fails to parse yields the full default triple, and a
parsed object missing any of the three keys yields the corresponding default
for that field; no error is raised (the function is total). -/
theorem getLLMEnrichments_defaults :
    ∀ (parse : String → Option ParsedEnrichment) (content : Option String),
      (parse (normalizeContent content) = none →
        getLLMEnrichments parse content = ⟨"Medium", 50, "emotional"⟩) ∧
      (∀ p, parse (normalizeContent content) = some p →
        (p.awardPotential = none →
          (getLLMEnrichments parse content).awardPotential = "Medium") ∧
        (p.popularityQualityIndex = none →
          (getLLMEnrichments parse content).popularityQualityIndex = 50) ∧
        (p.emotionalGenres = none →
          (getLLMEnrichments parse content).emotionalGenres = "emotional")) := by
  intro parse content
  constructor
  · intro h
    unfold getLLMEnrichments
    rw [h]
  · intro p hp
    refine ⟨?_, ?_, ?_⟩ <;> intro h <;> unfold getLLMEnrichments <;> rw [hp] <;>
      simp [jsOrString, jsOrInt, h]

theorem getLLMEnrichments_defaults_witness :
    getLLMEnrichments (fun _ => none) (some "this is not JSON") =
      ⟨"Medium", 50, "emotional"⟩ :=
  (getLLMEnrichments_defaults (fun _ => none) (some "this is not JSON")).1 rfl

/-- C9: a parsed object carrying a JS-falsy value — index `0`, or an empty
string for the categorical fields — is silently replaced by the default, and
consequently a popularity-quality index of `0` can never be returned (hence
never persisted). -/
theorem getLLMEnrichments_falsy :
    (∀ (parse : String → Option ParsedEnrichment) (content : Option String) p,
      parse (normalizeContent content) = some p →
      (p.popularityQualityIndex = some 0 →
        (getLLMEnrichments parse content).popularityQualityIndex = 50) ∧
      (p.awardPotential = some "" →
        (getLLMEnrichments parse content).awardPotential = "Medium") ∧
      (p.emotionalGenres = some "" →
        (getLLMEnrichments parse content).emotionalGenres = "emotional")) ∧
    (∀ (parse : String → Option ParsedEnrichment) (content : Option String),
      (getLLMEnrichments parse content).popularityQualityIndex ≠ 0) := by
  constructor
  · intro parse content p hp
    refine ⟨?_, ?_, ?_⟩ <;> intro h <;> unfold getLLMEnrichments <;> rw [hp] <;>
      simp [jsOrString, jsOrInt, h]
  · intro parse content
    unfold getLLMEnrichments
    cases parse (normalizeContent content) with
    | none => decide
    | some p =>
      show jsOrInt p.popularityQualityIndex 50 ≠ 0
      unfold jsOrInt
      cases p.popularityQualityIndex with
      | none => decide
      | some n =>
        by_cases h : n = 0
        · simp [h]
        · simp [h]

theorem getLLMEnrichments_falsy_witness :
    (getLLMEnrichments (fun _ => some ⟨some "", some 0, some ""⟩)
      (some "completion")).popularityQualityIndex = 50 ∧
    (getLLMEnrichments (fun _ => some ⟨some "", some 0, some ""⟩)
      (some "completion")).awardPotential = "Medium" := by
  have h := getLLMEnrichments_falsy.1 (fun _ => some ⟨some "", some 0, some ""⟩)
    (some "completion") ⟨some "", some 0, some ""⟩ rfl
  exact ⟨h.1 rfl, h.2.1 rfl⟩

/-! ## C10: comparison with duplicate ids -/

/-- C10: `compareMovies` matches the requested ids against the enriched catalog
with `filter`/`includes` and demands as many matches as requested ids; since
the catalog holds one row per movie id, a duplicated id (with at least two ids
requested) always trips the count check and throws
"Some movies not found or not enriched", even when every listed movie exists
and is enriched. -/
theorem compareMovies_duplicate_ids :
    ∀ (α : Type) (oracle : List EnrichedMovie → Option α)
      (enriched : List EnrichedMovie) (movieIds : List Int),
      2 ≤ movieIds.length →
      (enriched.map EnrichedMovie.movieId).Nodup →
      ¬ movieIds.Nodup →
      compareMovies oracle enriched movieIds =
        .error "Some movies not found or not enriched" := by
  intro α oracle enriched movieIds hlen hnd hdup
  have hnd' : ((enriched.filter fun m => movieIds.contains m.movieId).map
      EnrichedMovie.movieId).Nodup :=
    hnd.sublist ((List.filter_sublist enriched).map _)
  have hsub : List.Subperm
      ((enriched.filter fun m => movieIds.contains m.movieId).map
        EnrichedMovie.movieId) movieIds := by
    apply List.subperm_of_subset hnd'
    intro a ha
    obtain ⟨m, hmem, rfl⟩ := List.mem_map.mp ha
    have hc := (List.mem_filter.mp hmem).2
    simpa using hc
  have hne : (enriched.filter fun m => movieIds.contains m.movieId).length ≠
      movieIds.length := by
    intro heq
    apply hdup
    have hperm := hsub.perm_of_length_le (by rw [List.length_map, heq])
    exact hperm.nodup_iff.mp hnd'
  unfold compareMovies
  rw [if_neg (by omega), if_pos hne]

theorem compareMovies_duplicate_ids_witness :
    compareMovies (fun _ => some (0 : Nat)) [⟨1, "A", "High", "dark", 70⟩]
      [1, 1] = .error "Some movies not found or not enriched" :=
  compareMovies_duplicate_ids Nat (fun _ => some 0) [⟨1, "A", "High", "dark", 70⟩]
    [1, 1] (by decide) (by decide) (by decide)

/-! ## C5: recommendation truncation and reconciliation -/

lemma reconcile_isSome (cands : List EnrichedMovie) (rec : RecTriple) :
    (reconcile cands rec).isSome =
      cands.any fun m => m.movieId = rec.movieId := by
  unfold reconcile
  cases h : cands.find? fun m => m.movieId = rec.movieId with
  | none => rw [← find?_isSome_eq_any, h]; rfl
  | some movie => rw [← find?_isSome_eq_any, h]; rfl

/-- C5: the oracle prompt is built from the first 50 candidates only (two
oracles agreeing on that prefix produce identical results), and the result is
exactly the reconciliation of the returned triples: each triple is looked up
among the candidates, a triple whose id matches no candidate is silently
dropped (never a placeholder — every result entry carries an actual candidate
movie), so the result counts exactly the matching triples and may be shorter
than the requested count. -/
theorem getRecommendations_spec :
    (∀ (o₁ o₂ : List EnrichedMovie → Option (List RecTriple))
      (ratedIds : List Int) (enriched : List EnrichedMovie) (count : Nat),
      o₁ ((candidateMovies ratedIds enriched).take 50) =
        o₂ ((candidateMovies ratedIds enriched).take 50) →
      getRecommendations o₁ ratedIds enriched count =
        getRecommendations o₂ ratedIds enriched count) ∧
    (∀ (o : List EnrichedMovie → Option (List RecTriple))
      (ratedIds : List Int) (enriched : List EnrichedMovie) (count : Nat)
      (triples : List RecTriple),
      o ((candidateMovies ratedIds enriched).take 50) = some triples →
      candidateMovies ratedIds enriched ≠ [] →
      getRecommendations o ratedIds enriched count =
        .ok ((triples.take count).filterMap
          (reconcile (candidateMovies ratedIds enriched))) ∧
      (∀ r ∈ (triples.take count).filterMap
          (reconcile (candidateMovies ratedIds enriched)),
        r.movie ∈ candidateMovies ratedIds enriched) ∧
      ((triples.take count).filterMap
          (reconcile (candidateMovies ratedIds enriched))).length =
        (triples.take count).countP
          (fun rec => (candidateMovies ratedIds enriched).any
            fun m => m.movieId = rec.movieId) ∧
      ((triples.take count).filterMap
          (reconcile (candidateMovies ratedIds enriched))).length ≤ count) := by
  constructor
  · intro o₁ o₂ ratedIds enriched count h
    unfold getRecommendations
    rw [h]
  · intro o ratedIds enriched count triples ho hne
    refine ⟨?_, ?_, ?_, ?_⟩
    · unfold getRecommendations
      rw [isEmpty_false_of_ne_nil hne, ho]
      rfl
    · intro r hr
      obtain ⟨t, ht, hrec⟩ := List.mem_filterMap.mp hr
      unfold reconcile at hrec
      obtain ⟨movie, hfind, hmk⟩ := Option.map_eq_some'.mp hrec
      have : r.movie = movie := by rw [← hmk]
      rw [this]
      exact List.mem_of_find?_eq_some hfind
    · rw [length_filterMap_eq_countP]
      congr 1
      funext t
      exact reconcile_isSome _ t
    · calc ((triples.take count).filterMap
            (reconcile (candidateMovies ratedIds enriched))).length
          ≤ (triples.take count).length := List.length_filterMap_le _ _
        _ ≤ count := List.length_take_le _ _

theorem getRecommendations_spec_witness :
    getRecommendations
      (fun _ => some [⟨1, some 90, some "match"⟩, ⟨99, some 80, some "unknown id"⟩])
      [2] [⟨1, "A", "High", "dark", 70⟩, ⟨2, "B", "Low", "calm", 30⟩] 10 =
      .ok [⟨⟨1, "A", "High", "dark", 70⟩, 90, "match"⟩] := by
  have h := (getRecommendations_spec.2
    (fun _ => some [⟨1, some 90, some "match"⟩, ⟨99, some 80, some "unknown id"⟩])
    [2] [⟨1, "A", "High", "dark", 70⟩, ⟨2, "B", "Low", "calm", 30⟩] 10
    [⟨1, some 90, some "match"⟩, ⟨99, some 80, some "unknown id"⟩] rfl
    (by decide)).1
  rw [h]
  rfl

/-! ## Production effectiveness: component bounds -/

lemma ratingScore_nonneg {r : ℝ} (h : 0 ≤ r) : 0 ≤ ratingScore r := by
  unfold ratingScore; linarith

lemma ratingScore_le_100 {r : ℝ} (h : r ≤ 5) : ratingScore r ≤ 100 := by
  unfold ratingScore; linarith

lemma ratingScore_mono {r₁ r₂ : ℝ} (h : r₁ ≤ r₂) : ratingScore r₁ ≤ ratingScore r₂ := by
  unfold ratingScore; linarith

lemma roiScore_nonneg (b v : Int) : 0 ≤ roiScore b v := by
  unfold roiScore
  split_ifs
  · exact le_min (by norm_num) (le_max_left _ _)
  · norm_num

lemma roiScore_le_100 (b v : Int) : roiScore b v ≤ 100 := by
  unfold roiScore
  split_ifs
  · exact min_le_left _ _
  · norm_num

lemma revenueScore_nonneg (v : Int) : 0 ≤ revenueScore v := by
  unfold revenueScore
  split_ifs with hv
  · refine le_min (by norm_num) ?_
    have h1 : (1 : ℝ) ≤ (v : ℝ) := by exact_mod_cast hv
    have hl := Real.logb_nonneg (by norm_num : (1 : ℝ) < 10) h1
    linarith
  · norm_num

lemma revenueScore_le_100 (v : Int) : revenueScore v ≤ 100 := by
  unfold revenueScore
  split_ifs
  · exact min_le_left _ _
  · norm_num

lemma roundTo2_mono {x y : ℝ} (h : x ≤ y) : roundTo2 x ≤ roundTo2 y := by
  unfold roundTo2
  have hr : round (x * 100) ≤ round (y * 100) := by
    rw [round_eq, round_eq]
    exact Int.floor_mono (by linarith)
  have hc : ((round (x * 100) : ℤ) : ℝ) ≤ ((round (y * 100) : ℤ) : ℝ) := by
    exact_mod_cast hr
  linarith

lemma roundTo2_100 : roundTo2 100 = 100 := by
  unfold roundTo2
  have h : ((100 : ℝ) * 100) = ((10000 : ℤ) : ℝ) := by norm_num
  rw [h, round_intCast]
  norm_num

lemma roundTo2_nonneg {x : ℝ} (h : 0 ≤ x) : 0 ≤ roundTo2 x := by
  have hm := roundTo2_mono h
  have h0 : roundTo2 0 = 0 := by
    unfold roundTo2
    norm_num
  linarith

lemma roundTo2_le_100 {x : ℝ} (h : x ≤ 100) : roundTo2 x ≤ 100 := by
  have hm := roundTo2_mono h
  rw [roundTo2_100] at hm
  exact hm

lemma productionEffectiveness_bounds_aux (m : Movie) {r : ℝ} (h0 : 0 ≤ r)
    (h5 : r ≤ 5) :
    0 ≤ calculateProductionEffectiveness m r ∧
      calculateProductionEffectiveness m r ≤ 100 := by
  have hr0 := ratingScore_nonneg h0
  have hr1 := ratingScore_le_100 h5
  have hb0 := roiScore_nonneg m.budget m.revenue
  have hb1 := roiScore_le_100 m.budget m.revenue
  have hv0 := revenueScore_nonneg m.revenue
  have hv1 := revenueScore_le_100 m.revenue
  unfold calculateProductionEffectiveness
  exact ⟨roundTo2_nonneg (by nlinarith), roundTo2_le_100 (by nlinarith)⟩

lemma logb_ten_pow_nine : Real.logb 10 ((10 : ℝ) ^ (9 : ℕ)) = 9 := by
  rw [Real.logb_pow, Real.logb_self_eq_one (by norm_num)]
  norm_num

lemma ratingScore_five : ratingScore 5 = 100 := by
  unfold ratingScore
  norm_num

lemma roiScore_hundred_billion : roiScore 100 (10 ^ 9) = 100 := by
  unfold roiScore
  rw [if_pos ⟨by norm_num, by norm_num⟩]
  push_cast
  rw [max_eq_right (by norm_num), min_eq_left (by norm_num)]

lemma revenueScore_billion : revenueScore (10 ^ 9) = 100 := by
  unfold revenueScore
  rw [if_pos (by norm_num : (0 : ℤ) < 10 ^ 9)]
  have hc : (((10 : ℤ) ^ 9 : ℤ) : ℝ) = (10 : ℝ) ^ (9 : ℕ) := by push_cast; ring
  rw [hc, logb_ten_pow_nine]
  norm_num

lemma revenueScore_of_billion_lt {v : Int} (hv : 10 ^ 9 < v) : revenueScore v = 100 := by
  unfold revenueScore
  rw [if_pos (by omega : (0 : ℤ) < v)]
  refine min_eq_left ?_
  have h9 : (9 : ℝ) ≤ Real.logb 10 (v : ℝ) := by
    have hle : ((10 : ℝ) ^ (9 : ℕ)) ≤ (v : ℝ) := by
      have : ((10 : ℤ) ^ 9 : ℤ) ≤ v := le_of_lt hv
      exact_mod_cast this
    have := Real.logb_le_logb_of_le (by norm_num : (1 : ℝ) < 10)
      (by positivity : (0 : ℝ) < (10 : ℝ) ^ (9 : ℕ)) hle
    rw [logb_ten_pow_nine] at this
    exact this
  linarith

/-- C4: `calculateProductionEffectiveness` is a pure total function of its
inputs; for any movie (integer budget and revenue) and any `avgRating` in
`[0, 5]` it returns a value in `[0, 100]`, computed as the two-decimal
rounding of `ratingScore*0.40 + roiScore*0.35 + revenueScore*0.25`. -/
theorem calculateProductionEffectiveness_bounds :
    ∀ (m : Movie) (avgRating : ℝ), 0 ≤ avgRating → avgRating ≤ 5 →
      0 ≤ calculateProductionEffectiveness m avgRating ∧
      calculateProductionEffectiveness m avgRating ≤ 100 ∧
      calculateProductionEffectiveness m avgRating =
        roundTo2 (ratingScore avgRating * 0.4 + roiScore m.budget m.revenue * 0.35 +
          revenueScore m.revenue * 0.25) := by
  intro m r h0 h5
  have h := productionEffectiveness_bounds_aux m h0 h5
  exact ⟨h.1, h.2, rfl⟩

theorem calculateProductionEffectiveness_bounds_witness :
    0 ≤ calculateProductionEffectiveness ⟨7, "W", "2021-05-05", 10, 20, none⟩ 3 ∧
    calculateProductionEffectiveness ⟨7, "W", "2021-05-05", 10, 20, none⟩ 3 ≤ 100 := by
  have h := calculateProductionEffectiveness_bounds ⟨7, "W", "2021-05-05", 10, 20, none⟩ 3
    (by norm_num) (by norm_num)
  exact ⟨h.1, h.2.1⟩

/-- C8: holding budget and revenue fixed, the production-effectiveness score is
monotone non-decreasing in `avgRating`; and at `avgRating = 5`, `budget = 100`,
`revenue = 10^9`, the roiScore clamps to 100, the revenueScore is 100, the
ratingScore is 100, and the total is exactly 100. -/
theorem calculateProductionEffectiveness_monotone :
    (∀ (m : Movie) (r₁ r₂ : ℝ), r₁ ≤ r₂ →
      calculateProductionEffectiveness m r₁ ≤ calculateProductionEffectiveness m r₂) ∧
    ratingScore 5 = 100 ∧
    roiScore 100 (10 ^ 9) = 100 ∧
    revenueScore (10 ^ 9) = 100 ∧
    calculateProductionEffectiveness ⟨101, "Blockbuster", "2020-01-01", 100, 10 ^ 9, none⟩
      5 = 100 := by
  refine ⟨?_, ratingScore_five, roiScore_hundred_billion, revenueScore_billion, ?_⟩
  · intro m r₁ r₂ h
    unfold calculateProductionEffectiveness
    exact roundTo2_mono (by have := ratingScore_mono h; linarith)
  · show roundTo2 (ratingScore 5 * 0.4 + roiScore 100 (10 ^ 9) * 0.35 +
      revenueScore (10 ^ 9) * 0.25) = 100
    rw [ratingScore_five, roiScore_hundred_billion, revenueScore_billion]
    have h : (100 : ℝ) * 0.4 + 100 * 0.35 + 100 * 0.25 = 100 := by norm_num
    rw [h, roundTo2_100]

theorem calculateProductionEffectiveness_monotone_witness :
    calculateProductionEffectiveness ⟨7, "W", "2021-05-05", 10, 20, none⟩ 3 ≤
      calculateProductionEffectiveness ⟨7, "W", "2021-05-05", 10, 20, none⟩ 4 :=
  calculateProductionEffectiveness_monotone.1 ⟨7, "W", "2021-05-05", 10, 20, none⟩ 3 4
    (by norm_num)

/-- C1 counterexample: the claim that some revenue above `10^9` makes the
`revenueScore` component exceed 100 is false — the source clamps it with
`Math.min(100, ...)`: at the explicit input `revenue = 10^10` the component is
exactly 100, and no revenue value at all makes it exceed 100. -/
theorem revenueScore_never_exceeds_100 :
    revenueScore (10 ^ 10) = 100 ∧
    ¬ (100 : ℝ) < revenueScore (10 ^ 10) ∧
    ¬ ∃ v : Int, 10 ^ 9 < v ∧ (100 : ℝ) < revenueScore v := by
  have h10 : revenueScore (10 ^ 10) = 100 :=
    revenueScore_of_billion_lt (by norm_num)
  refine ⟨h10, by rw [h10]; exact lt_irrefl 100, ?_⟩
  rintro ⟨v, hv, hgt⟩
  have := revenueScore_le_100 v
  linarith

/-- C1 amended: for every movie with positive budget and revenue strictly above
`10^9`, the `revenueScore` component equals exactly 100 (it is clamped by
`Math.min(100, ...)` in the source), and for `avgRating` in `[0, 5]` the final
weighted production-effectiveness score stays within `[0, 100]`. -/
theorem revenueScore_clamped_above_billion :
    ∀ (m : Movie) (r : ℝ), 0 < m.budget → 10 ^ 9 < m.revenue → 0 ≤ r → r ≤ 5 →
      revenueScore m.revenue = 100 ∧
      0 ≤ calculateProductionEffectiveness m r ∧
      calculateProductionEffectiveness m r ≤ 100 := by
  intro m r _ hrev h0 h5
  have h := productionEffectiveness_bounds_aux m h0 h5
  exact ⟨revenueScore_of_billion_lt hrev, h.1, h.2⟩

theorem revenueScore_clamped_above_billion_witness :
    revenueScore ((⟨9, "B", "2020-01-01", 100, 10 ^ 10, none⟩ : Movie).revenue) = 100 ∧
    calculateProductionEffectiveness ⟨9, "B", "2020-01-01", 100, 10 ^ 10, none⟩ 5 ≤ 100 := by
  have h := revenueScore_clamped_above_billion ⟨9, "B", "2020-01-01", 100, 10 ^ 10, none⟩ 5
    (by norm_num) (by norm_num) (by norm_num) (by norm_num)
  exact ⟨h.1, h.2.2⟩

/-! ## C2: rolling company ROI -/

lemma windowAverage_eq_none_iff (valid : List Movie) :
    windowAverage valid = none ↔ valid = [] := by
  cases valid with
  | nil => simp [windowAverage]
  | cons a l => simp [windowAverage]

lemma windowROI_eq_none_iff (parse : String → Option (List Company))
    (catalog : List Movie) (movie : Movie) (primary : String) :
    windowROI parse catalog movie primary = none ↔
      (trailingWindow parse catalog movie primary).filter isValidFinancials = [] := by
  unfold windowROI
  split_ifs with h
  · have he : trailingWindow parse catalog movie primary = [] :=
      List.length_eq_zero.mp h
    simp [he]
  · exact windowAverage_eq_none_iff _

lemma windowROI_eq_some (parse : String → Option (List Company))
    (catalog : List Movie) (movie : Movie) (primary : String)
    (h : (trailingWindow parse catalog movie primary).filter isValidFinancials ≠ []) :
    windowROI parse catalog movie primary =
      some ((((trailingWindow parse catalog movie primary).filter
          isValidFinancials).map movieROI).sum /
        ((((trailingWindow parse catalog movie primary).filter
          isValidFinancials).length : ℚ))) := by
  unfold windowROI
  have hprev : ¬ (trailingWindow parse catalog movie primary).length = 0 := by
    intro h0
    exact h (by rw [List.length_eq_zero.mp h0]; rfl)
  rw [if_neg hprev]
  unfold windowAverage
  rw [if_pos (List.length_pos.mpr h)]

lemma calculateCompanyROI_cases (parse : String → Option (List Company))
    (catalog : List Movie) (movie : Movie) :
    calculateCompanyROI parse catalog movie =
      match companyNames parse movie with
      | none => none
      | some [] => none
      | some (primary :: _) => windowROI parse catalog movie primary := by
  unfold calculateCompanyROI companyNames
  cases movie.productionCompanies with
  | none => rfl
  | some raw =>
    by_cases hb : isBlank raw = true
    · simp [hb]
    · rw [Bool.not_eq_true] at hb
      simp only [hb, Bool.false_eq_true, if_false]
      cases parse raw with
      | none => rfl
      | some cs =>
        cases h : parsedCompanyNames cs with
        | nil => simp [h]
        | cons p rest => simp [h]

/-- Fixtures for the concrete rolling-ROI scenarios: a parse function mapping
the serialized column "ACME_JSON" to one company named "Acme". -/
def acmeParse : String → Option (List Company) :=
  fun s => if s = "ACME_JSON" then some [⟨some "Acme"⟩] else none

def acmeTarget : Movie := ⟨1, "Target", "2020-01-01", 0, 0, some "ACME_JSON"⟩

def acmePrior : Movie := ⟨2, "Prior", "2010-01-01", 100, 150, some "ACME_JSON"⟩

def acmeCatalogOnePrior : List Movie := [acmeTarget, acmePrior]

def acmeCatalogNoPrior : List Movie := [acmeTarget]

/-- C2: `calculateCompanyROI` returns null exactly when the movie has no
declared/parseable company list, the parsed name list is empty, or no movie in
the trailing window has positive budget and revenue; otherwise it returns the
arithmetic mean of `((revenue - budget)/budget)*100` over the valid-financial
members of the at-most-10 most recent strictly-earlier releases of the primary
company.  Concretely: one prior valid movie with budget 100 and revenue 150
gives 50, and a catalog with no prior company movies gives null, not zero. -/
lemma acme_one_prior_roi :
    calculateCompanyROI acmeParse acmeCatalogOnePrior acmeTarget = some 50 := by
  rw [calculateCompanyROI_cases]
  have hn : companyNames acmeParse acmeTarget = some ["Acme"] := by decide
  rw [hn]
  show windowROI acmeParse acmeCatalogOnePrior acmeTarget "Acme" = some 50
  have hw : (trailingWindow acmeParse acmeCatalogOnePrior acmeTarget "Acme").filter
      isValidFinancials = [acmePrior] := by decide
  rw [windowROI_eq_some _ _ _ _ (by rw [hw]; exact List.cons_ne_nil _ _), hw]
  norm_num [movieROI, acmePrior]

theorem calculateCompanyROI_spec :
    (∀ (parse : String → Option (List Company)) (catalog : List Movie) (movie : Movie),
      calculateCompanyROI parse catalog movie = none ↔
        companyNames parse movie = none ∨ companyNames parse movie = some [] ∨
        ∃ primary rest, companyNames parse movie = some (primary :: rest) ∧
          (trailingWindow parse catalog movie primary).filter isValidFinancials = []) ∧
    (∀ (parse : String → Option (List Company)) (catalog : List Movie) (movie : Movie)
      (primary : String) (rest : List String),
      companyNames parse movie = some (primary :: rest) →
      (trailingWindow parse catalog movie primary).filter isValidFinancials ≠ [] →
      calculateCompanyROI parse catalog movie =
        some ((((trailingWindow parse catalog movie primary).filter
            isValidFinancials).map movieROI).sum /
          ((((trailingWindow parse catalog movie primary).filter
            isValidFinancials).length : ℚ)))) ∧
    calculateCompanyROI acmeParse acmeCatalogOnePrior acmeTarget = some 50 ∧
    calculateCompanyROI acmeParse acmeCatalogNoPrior acmeTarget = none := by
  refine ⟨?_, ?_, acme_one_prior_roi, by decide⟩
  · intro parse catalog movie
    rw [calculateCompanyROI_cases]
    cases h : companyNames parse movie with
    | none => simp
    | some names =>
      cases names with
      | nil => simp
      | cons primary rest =>
        show windowROI parse catalog movie primary = none ↔ _
        rw [windowROI_eq_none_iff]
        constructor
        · intro hf
          exact Or.inr (Or.inr ⟨primary, rest, rfl, hf⟩)
        · rintro (hc | hc | ⟨p, r, hpr, hf⟩)
          · exact absurd hc (by simp)
          · exact absurd hc (by simp)
          · obtain ⟨h1, h2⟩ := List.cons.injEq .. ▸ (Option.some.injEq .. ▸ hpr)
            rw [h1]
            exact hf
  · intro parse catalog movie primary rest h hne
    rw [calculateCompanyROI_cases, h]
    exact windowROI_eq_some parse catalog movie primary hne

theorem calculateCompanyROI_spec_witness :
    calculateCompanyROI acmeParse acmeCatalogOnePrior acmeTarget = some 50 := by
  have h := calculateCompanyROI_spec.2.1 acmeParse acmeCatalogOnePrior acmeTarget
    "Acme" [] (by decide) (by decide)
  have hw : (trailingWindow acmeParse acmeCatalogOnePrior acmeTarget "Acme").filter
      isValidFinancials = [acmePrior] := by decide
  rw [h, hw]
  norm_num [movieROI, acmePrior]

end MovieRec
